import Mathlib

/-!
Verification development for the CUBOTino-T move-runner repository
(`demo_runner.py` and `gui_runner.py`).

Move strings are embedded as `List Char` (one entry per source-string
character).  Machine behaviour that crosses the backend boundary
(`init_servo`, `servo_solve_cube`, `stopping_servos`, display, window
destruction, `sys.exit`) is embedded as an event trace `List Ev`; the
backend's answers (the boolean from `init_servo`, the status string and
elapsed time from `servo_solve_cube`, or a raised exception) are inputs to
the embedded functions, since the backend module is outside this
repository.
-/

namespace Cube

/-! ## Events crossing the backend / process boundary -/

/-- One observable action of the program: a backend call, a window
destruction, or a `sys.exit` with its process exit code. -/
inductive Ev where
  | initServo (ok : Bool)
  | solveCube (moves : List Char)
  | showDisplay
  | stopServos
  | destroyWindow
  | exitProc (code : Nat)
deriving DecidableEq, Repr

/-- Exit code of the first `sys.exit` in a trace (the process terminates
there; later events would be unreachable). -/
def firstExitCode : List Ev → Option Nat
  | [] => none
  | Ev.exitProc c :: _ => some c
  | _ :: rest => firstExitCode rest

/-- `true` when a `stopping_servos` call occurs before the first
`sys.exit` of the trace (vacuously `true` when the trace never exits). -/
def stopPrecedesExit : List Ev → Bool
  | [] => true
  | Ev.stopServos :: _ => true
  | Ev.exitProc _ :: _ => false
  | _ :: rest => stopPrecedesExit rest

/-- Number of `stopping_servos` calls in a trace. -/
def countStops : List Ev → Nat
  | [] => 0
  | Ev.stopServos :: rest => countStops rest + 1
  | _ :: rest => countStops rest

/-! ## The move-token notation (demo_runner.py lines 78-89)

The fragment at the bottom of `demo_runner.py` tokenises a move string `s`
into character pairs with
`[(s[i], s[i+1]) for i in range(0, len(s), 2)]` (an odd-length string
raises `IndexError` at the last index, embedded as `none`), walks the
pairs in reverse, and emits a two-character chunk per pair. -/

/-- Pairing of a move string into `(face, amount)` character pairs;
`none` models the `IndexError` the comprehension raises on odd length. -/
def tokenize : List Char → Option (List (Char × Char))
  | [] => some []
  | [_] => none
  | a :: b :: rest => (tokenize rest).map (fun toks => (a, b) :: toks)

/-- Per-token amount rule of the `inv` fragment: flips keep their count;
otherwise digit `1` becomes `3`, digit `3` becomes `1`, anything else is
kept (the `0`/`4` half-turn cases fall in the final branch). -/
def invTokenVal (move v : Char) : Char :=
  if move = 'F' then v
  else if v = '1' then '3'
  else if v = '3' then '1'
  else v

/-- One token of the inverted sequence: the face letter with the inverted
amount (the fragment emits the chunk `f"{move}{inverted val}"`). -/
def invStep (t : Char × Char) : Char × Char := (t.1, invTokenVal t.1 t.2)

/-- Token-level inversion: walk the token list reversed, inverting each
token (the fragment's `for token in reversed([...])` loop). -/
def invTokens (toks : List (Char × Char)) : List (Char × Char) :=
  toks.reverse.map invStep

/-- Concatenation of two-character token chunks back into one string
(the fragment's `"".join(inv)` over the emitted `f"{move}{val}"` chunks). -/
def serializeTokens : List (Char × Char) → List Char
  | [] => []
  | (a, b) :: rest => a :: b :: serializeTokens rest

/-- The `inv` fragment of `demo_runner.py` as a function of the move
string `s`: tokenise, reverse, invert each token, join. -/
def inv (s : List Char) : Option (List Char) :=
  (tokenize s).map (fun toks => serializeTokens (invTokens toks))

/-! ## Well-formed move strings -/

/-- Known face letters: `F` (flip), `R` (rotate), `S` (shift). -/
def validFace (c : Char) : Bool :=
  c = 'F' || c = 'R' || c = 'S'

/-- Valid amount digits for a face.  Each of the three faces accepts the
amount digits `0`-`4` (the spec's per-face table over the Amount domain). -/
def validAmount (f a : Char) : Bool :=
  validFace f && (a = '0' || a = '1' || a = '2' || a = '3' || a = '4')

/-- A well-formed move string: even length, split into pairs of a known
face letter and a valid amount digit for that face. -/
def wellFormedMoves : List Char → Bool
  | [] => true
  | [_] => false
  | a :: b :: rest => validFace a && validAmount a b && wellFormedMoves rest

/-! ## Sequence parser

Modelled from the spec: neither source file contains a parser — the GUI
hands the raw move string to the backend unvalidated — so the
`parse` contract of spec §4.1 (`parse(raw) -> Result<MoveSequence,
ParseError>`, consuming the input in pairs, failing fast on the first
malformed pair with its position) is embedded from the spec's words. -/

/-- Modelled from the spec: a `ParseError` identifying the offending pair
and its position — a trailing incomplete pair, an unknown face letter, or
a second character that is not a valid amount digit for that face. -/
inductive ParseError where
  | incompletePair (pos : Nat) (c : Char)
  | badFace (pos : Nat) (face amount : Char)
  | badAmount (pos : Nat) (face amount : Char)
deriving DecidableEq, Repr

/-- Character position a `ParseError` reports. -/
def errPos : ParseError → Nat
  | ParseError.incompletePair p _ => p
  | ParseError.badFace p _ _ => p
  | ParseError.badAmount p _ _ => p

/-- Modelled from the spec: pair-by-pair parsing from character position
`pos`, failing fast on the first malformed pair. -/
def parseFrom : Nat → List Char → Except ParseError (List (Char × Char))
  | _, [] => Except.ok []
  | pos, [c] => Except.error (ParseError.incompletePair pos c)
  | pos, a :: b :: rest =>
    if validFace a then
      if validAmount a b then
        match parseFrom (pos + 2) rest with
        | Except.ok toks => Except.ok ((a, b) :: toks)
        | Except.error e => Except.error e
      else Except.error (ParseError.badAmount pos a b)
    else Except.error (ParseError.badFace pos a b)

/-- Modelled from the spec: `parse(raw) -> Result<MoveSequence, ParseError>`. -/
def parse (s : List Char) : Except ParseError (List (Char × Char)) :=
  parseFrom 0 s

/-- What it means for a `ParseError` to identify the offending pair of
the input `s`, parsed starting at position `pos`: the reported characters
are the ones standing at the reported position, they are malformed in the
reported way, and everything before them parsed cleanly (fail-fast, no
partially accepted prefix).  The whole input `parse` runs with `pos = 0`,
so the offset `errPos e - pos` is then the reported position itself. -/
def errLocates (s : List Char) (pos : Nat) : ParseError → Prop
  | ParseError.incompletePair p c =>
      s.drop (p - pos) = [c] ∧ wellFormedMoves (s.take (p - pos)) = true
  | ParseError.badFace p a b =>
      (s.drop (p - pos)).take 2 = [a, b] ∧ validFace a = false ∧
        wellFormedMoves (s.take (p - pos)) = true
  | ParseError.badAmount p a b =>
      (s.drop (p - pos)).take 2 = [a, b] ∧ validFace a = true ∧
        validAmount a b = false ∧ wellFormedMoves (s.take (p - pos)) = true

/-! ## Python string helpers used by `gui_runner.py` -/

/-- Whitespace stripped by Python's `str.strip()` (ASCII subset). -/
def isSpaceChar (c : Char) : Bool :=
  c = ' ' || c = '\t' || c = '\n' || c = '\r'

/-- Python's `str.strip()`: drop whitespace from both ends. -/
def pyStrip (s : List Char) : List Char :=
  ((s.dropWhile isSpaceChar).reverse.dropWhile isSpaceChar).reverse

/-- Python's `str.lower()` on the ASCII range, applied characterwise. -/
def pyLower (s : List Char) : List Char :=
  s.map Char.toLower

/-- Python's `str.startswith(p)` on character lists (second argument is
the pattern). -/
def startsWithList : List Char → List Char → Bool
  | _, [] => true
  | [], _ :: _ => false
  | a :: s, b :: p => a == b && startsWithList s p

/-- `status.lower().startswith("ko")` — the illegal-move classification
of `gui_runner.py` line 115. -/
def koStatus (st : List Char) : Bool :=
  startsWithList (pyLower st) ['k', 'o']

/-! ## The interactive controller (`gui_runner.py`, class CubotinoGUI)

`_run_moves` is embedded as a function of the controller state, the entry
buffer, and the backend's answers: the boolean `init_servo` would return
and the reply of `servo_solve_cube` (a status/time pair, or a raised
exception caught by the `except` clause).  The Tk dialogs and the status
label are the surfaced outcome. -/

/-- The backend's reply to a `servo_solve_cube` call: a status string and
an elapsed time, or an exception propagating out of the call. -/
inductive BackendReply where
  | status (st : List Char) (t : Nat)
  | exc (msg : String)
deriving DecidableEq, Repr

/-- The outcome `_run_moves` surfaces to the user: the "No moves" info
dialog, the "Servo init failed!" label, the "Illegal move" error dialog,
the "Finished" label, or the "Runtime error" dialog. -/
inductive Outcome where
  | infoNoMoves
  | initFailed
  | illegalMove (st : List Char)
  | finished (t : Nat)
  | runtimeError (msg : String)
deriving DecidableEq, Repr

/-- Mutable controller state: the `servo_ok` flag and the status label
text (`self.servo_ok`, `self.status_lbl`). -/
structure GuiState where
  servo_ok : Bool
  label : String
deriving DecidableEq, Repr

/-- `CubotinoGUI._init_servo`: call `init_servo`, record its boolean in
`servo_ok`, set the label accordingly. -/
def initServoStep (g : GuiState) (ok : Bool) : GuiState :=
  { servo_ok := ok,
    label := if ok then "Servo ready." else "Servo init failed!" }

/-- `f"Finished in {t:.1f}s"` with the elapsed time embedded as `Nat`. -/
def finishedLabel (t : Nat) : String :=
  "Finished in " ++ toString t ++ "s"

/-- The `try` block of `_run_moves`: call `servo_solve_cube` on the
stripped move string; classify a `ko`-status as an illegal move, anything
else as a finished run (updating the display when `ct.s_disp` exists);
the `except` clause surfaces an exception as a runtime error. -/
def runCore (g : GuiState) (pre : List Ev) (moves : List Char)
    (hasDisp : Bool) (reply : BackendReply) :
    GuiState × Outcome × List Ev :=
  match reply with
  | BackendReply.exc m =>
      ({ g with label := "Error - see dialog" }, Outcome.runtimeError m,
        pre ++ [Ev.solveCube moves])
  | BackendReply.status st t =>
      if koStatus st then
        ({ g with label := "Error: illegal move" }, Outcome.illegalMove st,
          pre ++ [Ev.solveCube moves])
      else
        ({ g with label := finishedLabel t }, Outcome.finished t,
          pre ++ [Ev.solveCube moves] ++
            (if hasDisp then [Ev.showDisplay] else []))

/-- `CubotinoGUI._run_moves`: strip the buffer; an empty string short-
circuits with the "No moves" info dialog; a session not yet initialised
first runs `_init_servo` and returns on failure; otherwise the stripped
string goes to `servo_solve_cube`. -/
def runMoves (g : GuiState) (buf : List Char) (initOk hasDisp : Bool)
    (reply : BackendReply) : GuiState × Outcome × List Ev :=
  let moves := pyStrip buf
  if moves = [] then (g, Outcome.infoNoMoves, [])
  else if g.servo_ok then runCore g [] moves hasDisp reply
  else
    let g1 := initServoStep g initOk
    if g1.servo_ok then runCore g1 [Ev.initServo initOk] moves hasDisp reply
    else (g1, Outcome.initFailed, [Ev.initServo initOk])

/-! ## Termination paths -/

/-- `demo_runner.main`: initialise the servos; on failure
`sys.exit("...")` terminates with exit code 1 and nothing else runs; on
success the move string is executed, the result (whatever the returned
status, `status` takes no branch) is displayed, and `stopping_servos`
runs before the script falls off the end with exit code 0. -/
def demoMain (movesArg : List Char) (initOk : Bool) (status : List Char) :
    List Ev :=
  if initOk then
    [Ev.initServo true, Ev.solveCube movesArg, Ev.showDisplay,
      Ev.stopServos, Ev.exitProc 0]
  else
    [Ev.initServo false, Ev.exitProc 1]

/-- `demo_runner.graceful_quit` (installed for SIGINT and SIGTERM before
`main` runs): call `stopping_servos`, then `sys.exit(0)`.  The handler
reads and writes no state, so every delivery executes both steps. -/
def gracefulQuitTrace : List Ev :=
  [Ev.stopServos, Ev.exitProc 0]

/-- `CubotinoGUI._quit` (installed for SIGINT, SIGTERM and window close):
`stopping_servos`, then — in the `finally` block — destroy the window and
`sys.exit(0)`. -/
def guiQuitTrace : List Ev :=
  [Ev.stopServos, Ev.destroyWindow, Ev.exitProc 0]

/-- Trace of `n` termination signals delivered in quick succession to the
unguarded `graceful_quit` handler: Python does not block the signal while
its handler runs, so delivery `k+1` arriving inside delivery `k`'s
`stopping_servos` call re-enters the handler; the innermost `sys.exit(0)`
unwinds every pending frame and terminates the process. -/
def interruptTrace : Nat → List Ev
  | 0 => []
  | 1 => gracefulQuitTrace
  | n + 2 => Ev.stopServos :: interruptTrace (n + 1)

/-! ## Helper lemmas: tokenisation and serialisation -/

theorem tokenize_serializeTokens :
    ∀ toks : List (Char × Char), tokenize (serializeTokens toks) = some toks
  | [] => rfl
  | (a, b) :: rest => by
      simp [serializeTokens, tokenize, tokenize_serializeTokens rest]

theorem serializeTokens_of_tokenize :
    ∀ (s : List Char) (toks : List (Char × Char)),
      tokenize s = some toks → serializeTokens toks = s
  | [], toks, h => by
      simp [tokenize] at h
      subst h
      rfl
  | [c], toks, h => by
      simp [tokenize] at h
  | a :: b :: rest, toks, h => by
      cases hrest : tokenize rest with
      | none => simp [tokenize, hrest] at h
      | some ts =>
          simp [tokenize, hrest] at h
          have ih := serializeTokens_of_tokenize rest ts hrest
          subst h
          simp [serializeTokens, ih]

theorem length_of_tokenize :
    ∀ (s : List Char) (toks : List (Char × Char)),
      tokenize s = some toks → s.length = 2 * toks.length
  | [], toks, h => by
      simp [tokenize] at h
      subst h
      rfl
  | [c], toks, h => by
      simp [tokenize] at h
  | a :: b :: rest, toks, h => by
      cases hrest : tokenize rest with
      | none => simp [tokenize, hrest] at h
      | some ts =>
          simp [tokenize, hrest] at h
          have ih := length_of_tokenize rest ts hrest
          subst h
          simp [ih]
          omega

theorem wellFormed_tokenize :
    ∀ s : List Char, wellFormedMoves s = true →
      ∃ toks, tokenize s = some toks
  | [], _ => ⟨[], rfl⟩
  | [c], h => by simp [wellFormedMoves] at h
  | a :: b :: rest, h => by
      simp [wellFormedMoves] at h
      obtain ⟨toks, htoks⟩ := wellFormed_tokenize rest h.2
      exact ⟨(a, b) :: toks, by simp [tokenize, htoks]⟩

theorem serializeTokens_length :
    ∀ toks : List (Char × Char),
      (serializeTokens toks).length = 2 * toks.length
  | [] => rfl
  | (a, b) :: rest => by
      simp [serializeTokens, serializeTokens_length rest]
      omega

/-! ## Helper lemmas: the per-token inverse is an involution -/

theorem invTokenVal_invTokenVal (m v : Char) :
    invTokenVal m (invTokenVal m v) = v := by
  by_cases hm : m = 'F'
  · simp [invTokenVal, hm]
  · by_cases h1 : v = '1'
    · simp [invTokenVal, hm, h1]
    · by_cases h3 : v = '3'
      · simp [invTokenVal, hm, h3]
      · simp [invTokenVal, hm, h1, h3]

theorem invStep_invStep (t : Char × Char) : invStep (invStep t) = t := by
  cases t with
  | mk m v => simp [invStep, invTokenVal_invTokenVal]

theorem invTokens_invTokens (l : List (Char × Char)) :
    invTokens (invTokens l) = l := by
  simp [invTokens, ← List.map_reverse, List.reverse_reverse, List.map_map,
    Function.comp_def, invStep_invStep]

/-- A character list starts with `['k', 'o']` exactly when it has the
shape `'k' :: 'o' :: rest`. -/
theorem startsWithList_ko (s : List Char) :
    startsWithList s ['k', 'o'] = true ↔ ∃ r, s = 'k' :: 'o' :: r := by
  match s with
  | [] => simp [startsWithList]
  | [a] => simp [startsWithList]
  | a :: b :: r =>
      simp only [startsWithList, Bool.and_eq_true, beq_iff_eq]
      constructor
      · rintro ⟨ha, hb, -⟩
        exact ⟨r, by rw [ha, hb]⟩
      · rintro ⟨r', hr⟩
        injection hr with h1 h2
        injection h2 with h2 h3
        simp [h1, h2, startsWithList]

/-! ## Claims about the inverter -/

/-- C3: for every well-formed move string, the `inv` fragment succeeds
and produces a string of the same length whose token sequence is the
reverse of the input's token sequence with each token mapped by the
per-token rule: a flip keeps its amount; on any other face amount `1`
becomes `3`, amount `3` becomes `1`, and amounts `0` and `4` are
unchanged. -/
theorem inv_reverses_and_inverts_tokens (s : List Char)
    (hwf : wellFormedMoves s = true) :
    ∃ toks out, tokenize s = some toks ∧ inv s = some out ∧
      tokenize out = some (invTokens toks) ∧
      out.length = s.length ∧
      (invTokens toks).length = toks.length ∧
      invTokens toks = (toks.map invStep).reverse ∧
      ∀ t : Char × Char,
        (t.1 = 'F' → invTokenVal t.1 t.2 = t.2) ∧
        (t.1 ≠ 'F' →
          (t.2 = '1' → invTokenVal t.1 t.2 = '3') ∧
          (t.2 = '3' → invTokenVal t.1 t.2 = '1') ∧
          (t.2 = '0' → invTokenVal t.1 t.2 = '0') ∧
          (t.2 = '4' → invTokenVal t.1 t.2 = '4')) := by
  obtain ⟨toks, htoks⟩ := wellFormed_tokenize s hwf
  refine ⟨toks, serializeTokens (invTokens toks), htoks, ?_, ?_, ?_, ?_, ?_, ?_⟩
  · simp [inv, htoks]
  · exact tokenize_serializeTokens _
  · have h1 := serializeTokens_length (invTokens toks)
    have h2 := length_of_tokenize s toks htoks
    have h3 : (invTokens toks).length = toks.length := by simp [invTokens]
    omega
  · simp [invTokens]
  · simp [invTokens, List.map_reverse]
  · intro t
    constructor
    · intro hF
      simp [invTokenVal, hF]
    · intro hF
      refine ⟨?_, ?_, ?_, ?_⟩ <;> intro hv <;> simp [invTokenVal, hF, hv]

/-- Witness for C3 at the spec's worked example `F1R1S3`. -/
theorem inv_reverses_and_inverts_tokens_witness :
    wellFormedMoves ("F1R1S3".toList) = true ∧
    ∃ toks out, tokenize ("F1R1S3".toList) = some toks ∧
      inv ("F1R1S3".toList) = some out ∧
      tokenize out = some (invTokens toks) ∧
      out.length = ("F1R1S3".toList).length ∧
      (invTokens toks).length = toks.length ∧
      invTokens toks = (toks.map invStep).reverse ∧
      ∀ t : Char × Char,
        (t.1 = 'F' → invTokenVal t.1 t.2 = t.2) ∧
        (t.1 ≠ 'F' →
          (t.2 = '1' → invTokenVal t.1 t.2 = '3') ∧
          (t.2 = '3' → invTokenVal t.1 t.2 = '1') ∧
          (t.2 = '0' → invTokenVal t.1 t.2 = '0') ∧
          (t.2 = '4' → invTokenVal t.1 t.2 = '4')) :=
  ⟨by decide, inv_reverses_and_inverts_tokens ("F1R1S3".toList) (by decide)⟩

/-- C4: applying the `inv` fragment twice returns the original
well-formed move string. -/
theorem inv_involution (s : List Char) (hwf : wellFormedMoves s = true) :
    ∃ t, inv s = some t ∧ inv t = some s := by
  obtain ⟨toks, htoks⟩ := wellFormed_tokenize s hwf
  refine ⟨serializeTokens (invTokens toks), by simp [inv, htoks], ?_⟩
  have hser := serializeTokens_of_tokenize s toks htoks
  simp [inv, tokenize_serializeTokens, invTokens_invTokens, hser]

/-- Witness for C4 at `F1R1S3`. -/
theorem inv_involution_witness :
    wellFormedMoves ("F1R1S3".toList) = true ∧
    ∃ t, inv ("F1R1S3".toList) = some t ∧ inv t = some ("F1R1S3".toList) :=
  ⟨by decide, inv_involution ("F1R1S3".toList) (by decide)⟩

/-! ## Claims about the batch entry point -/

/-- C6: the batch entry point exits non-zero exactly when backend
initialisation fails; with initialisation succeeded it exits zero
whatever status string the run returned (the status takes no branch in
`main`), so an illegal-move run still exits zero. -/
theorem demoMain_exit_status (mv st : List Char) (ok : Bool) :
    firstExitCode (demoMain mv ok st) = some (if ok then 0 else 1) ∧
    (firstExitCode (demoMain mv ok st) = some 0 ↔ ok = true) := by
  cases ok <;> simp [demoMain, firstExitCode]

/-! ## Claims about the illegal-move classification -/

/-- C10: with a non-empty buffer and an initialised session, `_run_moves`
reports an illegal move exactly when the lower-cased status string begins
with `ko`; every other status string is reported as a finished run. -/
theorem runMoves_illegal_iff_ko (g : GuiState) (buf st : List Char)
    (t : Nat) (hasDisp : Bool)
    (hbuf : pyStrip buf ≠ []) (hok : g.servo_ok = true) :
    ((runMoves g buf true hasDisp (BackendReply.status st t)).2.1 =
        Outcome.illegalMove st ↔ ∃ r, pyLower st = 'k' :: 'o' :: r) ∧
    ((¬ ∃ r, pyLower st = 'k' :: 'o' :: r) →
      (runMoves g buf true hasDisp (BackendReply.status st t)).2.1 =
        Outcome.finished t) := by
  have hko := startsWithList_ko (pyLower st)
  by_cases hk : koStatus st
  · have := hko.mp hk
    constructor
    · simp [runMoves, hbuf, hok, runCore, hk, this]
    · intro hno
      exact absurd this hno
  · have hnot : ¬ ∃ r, pyLower st = 'k' :: 'o' :: r := fun hex =>
      hk (hko.mpr hex)
    constructor
    · simp [runMoves, hbuf, hok, runCore, hk, hnot]
    · intro _
      simp [runMoves, hbuf, hok, runCore, hk]

/-- Witness for C10: the status `KO_mis` is classified as an illegal
move. -/
theorem runMoves_illegal_iff_ko_witness :
    ((runMoves ⟨true, "Servo ready."⟩ ("F1".toList) true false
        (BackendReply.status ("KO_mis".toList) 2)).2.1 =
      Outcome.illegalMove ("KO_mis".toList) ↔
        ∃ r, pyLower ("KO_mis".toList) = 'k' :: 'o' :: r) :=
  (runMoves_illegal_iff_ko ⟨true, "Servo ready."⟩ ("F1".toList)
    ("KO_mis".toList) 2 false (by decide) rfl).1

/-! ## Claims about termination paths -/

/-- C1 counterexample: the batch entry point's initialisation-failure
path terminates the process (exit code 1) without any `stopping_servos`
call, so not every termination path performs the backend hardware stop. -/
theorem demoMain_init_failure_skips_stop :
    stopPrecedesExit (demoMain ("F1".toList) false ("ok".toList)) = false ∧
    countStops (demoMain ("F1".toList) false ("ok".toList)) = 0 ∧
    firstExitCode (demoMain ("F1".toList) false ("ok".toList)) = some 1 := by
  decide

/-- C1 (amended): every termination path except the batch
initialisation-failure path performs the backend hardware stop before the
process exits — normal and illegal-move-status completions of the batch
run, the signal handlers, and the GUI quit path all stop first — while
the batch initialisation-failure path exits non-zero without a stop. -/
theorem termination_paths_stop (mv st : List Char) (ok : Bool) :
    (ok = true → stopPrecedesExit (demoMain mv ok st) = true) ∧
    stopPrecedesExit gracefulQuitTrace = true ∧
    stopPrecedesExit guiQuitTrace = true ∧
    (ok = false → stopPrecedesExit (demoMain mv ok st) = false) := by
  cases ok <;>
    simp [demoMain, gracefulQuitTrace, guiQuitTrace, stopPrecedesExit]

/-- Witness for the amended C1: an illegal-move-status batch run still
stops the servos before exiting. -/
theorem termination_paths_stop_witness :
    stopPrecedesExit (demoMain ("F1".toList) true ("KO_mis".toList)) =
      true :=
  (termination_paths_stop ("F1".toList) ("KO_mis".toList) true).1 rfl

/-- Each signal delivery adds exactly one `stopping_servos` call: the
handler body is unguarded and stateless. -/
theorem countStops_interruptTrace :
    ∀ n, countStops (interruptTrace n) = n
  | 0 => rfl
  | 1 => rfl
  | n + 2 => by
      simp [interruptTrace, countStops, gracefulQuitTrace,
        countStops_interruptTrace (n + 1)]

/-- Any positive number of rapid signal deliveries still terminates the
process with exit code 0 (the innermost handler's `sys.exit(0)`). -/
theorem firstExitCode_interruptTrace :
    ∀ n, 1 ≤ n → firstExitCode (interruptTrace n) = some 0
  | 1, _ => rfl
  | n + 2, _ => by
      simp [interruptTrace, firstExitCode,
        firstExitCode_interruptTrace (n + 1) (by omega)]

/-- C2 counterexample: two termination signals in quick succession
re-enter the unguarded `graceful_quit` handler, producing two backend
stop calls — not exactly one — before the process terminates. -/
theorem interrupt_double_fire_two_stops :
    countStops (interruptTrace 2) = 2 ∧
    countStops (interruptTrace 2) ≠ 1 ∧
    firstExitCode (interruptTrace 2) = some 0 := by
  decide

/-- C2 (amended): the interruption path can fire at any point of the
lifecycle (the handler reads no session state) and each delivery runs the
stateless handler once: one delivery performs exactly one backend stop
call and terminates the process with exit code 0, and `n` rapid
deliveries re-enter the handler, performing `n` backend stop calls —
relying on the backend stop's idempotence — before the process exits
with code 0. -/
theorem interrupt_stops_per_delivery (n : Nat) (h : 1 ≤ n) :
    countStops (interruptTrace n) = n ∧
    firstExitCode (interruptTrace n) = some 0 ∧
    countStops gracefulQuitTrace = 1 ∧
    stopPrecedesExit (interruptTrace n) = true := by
  refine ⟨countStops_interruptTrace n, firstExitCode_interruptTrace n h,
    rfl, ?_⟩
  cases n with
  | zero => omega
  | succ m =>
      cases m <;>
        simp [interruptTrace, gracefulQuitTrace, stopPrecedesExit]

/-- Witness for the amended C2 at three rapid deliveries. -/
theorem interrupt_stops_per_delivery_witness :
    countStops (interruptTrace 3) = 3 ∧
    firstExitCode (interruptTrace 3) = some 0 ∧
    countStops gracefulQuitTrace = 1 ∧
    stopPrecedesExit (interruptTrace 3) = true :=
  interrupt_stops_per_delivery 3 (by decide)

/-! ## Claims about the interactive controller -/

/-- C7 counterexample: `_run_moves` does not parse the buffer — the
malformed odd-length string `F1R` is handed to the backend unchanged and
the run is reported as finished; no parse-error outcome exists. -/
theorem runMoves_no_parsing :
    wellFormedMoves ("F1R".toList) = false ∧
    runMoves ⟨true, "Servo ready."⟩ ("F1R".toList) true false
        (BackendReply.status ("ok".toList) 1) =
      (⟨true, "Finished in 1s"⟩, Outcome.finished 1,
        [Ev.solveCube ("F1R".toList)]) := by
  decide

/-- C7 (amended): with a non-empty buffer, `_run_moves` lazily calls
`init_servo` exactly when the session is uninitialised and then passes
the raw, unparsed buffer to the backend; an initialisation failure, a
backend illegal-move status, a backend exception, and a finished run are
surfaced as pairwise distinct outcomes; after an initialisation failure
the controller can retry, and after an illegal-move status the session
stays initialised (`servo_ok` remains true) and usable. -/
theorem runMoves_outcomes (g : GuiState) (buf st : List Char)
    (m : String) (t : Nat) (initOk hasDisp : Bool)
    (hbuf : pyStrip buf ≠ []) :
    (g.servo_ok = false → initOk = false →
      runMoves g buf initOk hasDisp (BackendReply.status st t) =
        (initServoStep g false, Outcome.initFailed,
          [Ev.initServo false])) ∧
    (g.servo_ok = false → initOk = true →
      ∃ evs,
        (runMoves g buf initOk hasDisp (BackendReply.status st t)).2.2 =
          Ev.initServo true :: Ev.solveCube (pyStrip buf) :: evs) ∧
    (g.servo_ok = true →
      (runMoves g buf initOk hasDisp (BackendReply.status st t)).2.2.head? =
        some (Ev.solveCube (pyStrip buf))) ∧
    (g.servo_ok = true → koStatus st = true →
      (runMoves g buf initOk hasDisp (BackendReply.status st t)).2.1 =
          Outcome.illegalMove st ∧
        (runMoves g buf initOk hasDisp (BackendReply.status st t)).1.servo_ok =
          true) ∧
    (g.servo_ok = true →
      (runMoves g buf initOk hasDisp (BackendReply.exc m)).2.1 =
        Outcome.runtimeError m) ∧
    (Outcome.initFailed ≠ Outcome.illegalMove st ∧
      Outcome.initFailed ≠ Outcome.runtimeError m ∧
      Outcome.initFailed ≠ Outcome.finished t ∧
      Outcome.illegalMove st ≠ Outcome.runtimeError m ∧
      (Outcome.illegalMove st : Outcome) ≠ Outcome.finished t ∧
      Outcome.runtimeError m ≠ Outcome.finished t) := by
  refine ⟨?_, ?_, ?_, ?_, ?_, ?_, ?_, ?_, ?_, ?_, ?_⟩
  · intro hok hinit
    simp [runMoves, hbuf, hok, hinit, initServoStep]
  · intro hok hinit
    by_cases hk : koStatus st
    · refine ⟨[], ?_⟩
      simp [runMoves, hbuf, hok, hinit, initServoStep, runCore, hk]
    · refine ⟨if hasDisp then [Ev.showDisplay] else [], ?_⟩
      simp [runMoves, hbuf, hok, hinit, initServoStep, runCore, hk]
  · intro hok
    by_cases hk : koStatus st <;>
      simp [runMoves, hbuf, hok, runCore, hk]
  · intro hok hk
    simp [runMoves, hbuf, hok, runCore, hk]
  · intro hok
    simp [runMoves, hbuf, hok, runCore]
  · intro h
    cases h
  · intro h
    cases h
  · intro h
    cases h
  · intro h
    cases h
  · intro h
    cases h
  · intro h
    cases h

/-- Witness for the amended C7: an illegal-move run on an initialised
session with the buffer `F1` surfaces the illegal-move outcome and the
session stays initialised. -/
theorem runMoves_outcomes_witness :
    (runMoves ⟨true, "Servo ready."⟩ ("F1".toList) true false
        (BackendReply.status ("KO_mis".toList) 2)).2.1 =
      Outcome.illegalMove ("KO_mis".toList) ∧
    (runMoves ⟨true, "Servo ready."⟩ ("F1".toList) true false
        (BackendReply.status ("KO_mis".toList) 2)).1.servo_ok = true :=
  (runMoves_outcomes ⟨true, "Servo ready."⟩ ("F1".toList)
      ("KO_mis".toList) "boom" 2 true false (by decide)).2.2.2.1
    rfl (by decide)

/-- C8 counterexample: an empty buffer is not accepted for execution —
`_run_moves` returns the "No moves" informational prompt, performs no
backend call at all, and does not report a successful run. -/
theorem runMoves_empty_rejected :
    runMoves ⟨true, "Servo ready."⟩ [] true true
        (BackendReply.status ("ok".toList) 1) =
      (⟨true, "Servo ready."⟩, Outcome.infoNoMoves, []) ∧
    Outcome.infoNoMoves ≠ Outcome.finished 1 := by
  decide

/-- C8 (amended): the interactive execution path short-circuits on a
buffer that is empty after stripping: it surfaces the "No moves"
informational prompt, leaves the controller state unchanged, and performs
no backend call (neither initialisation nor execution); the empty
sequence is never handed to the backend as a run. -/
theorem runMoves_empty_short_circuit (g : GuiState)
    (initOk hasDisp : Bool) (reply : BackendReply) (buf : List Char)
    (h : pyStrip buf = []) :
    runMoves g buf initOk hasDisp reply = (g, Outcome.infoNoMoves, []) := by
  simp [runMoves, h]

/-- Witness for the amended C8 at a whitespace-only buffer. -/
theorem runMoves_empty_short_circuit_witness :
    runMoves ⟨false, "Servo not initialised."⟩ [' ', ' '] true true
        (BackendReply.status ("ok".toList) 1) =
      (⟨false, "Servo not initialised."⟩, Outcome.infoNoMoves, []) :=
  runMoves_empty_short_circuit ⟨false, "Servo not initialised."⟩ true true
    (BackendReply.status ("ok".toList) 1) [' ', ' '] (by decide)

/-! ## Claims about the parser -/

theorem drop_two_cons (k : Nat) (a b : Char) (l : List Char) :
    (a :: b :: l).drop (k + 2) = l.drop k := rfl

theorem take_two_cons (k : Nat) (a b : Char) (l : List Char) :
    (a :: b :: l).take (k + 2) = a :: b :: l.take k := rfl

theorem parseFrom_roundTrip :
    ∀ (s : List Char) (pos : Nat), wellFormedMoves s = true →
      ∃ toks, parseFrom pos s = Except.ok toks ∧ serializeTokens toks = s
  | [], _, _ => ⟨[], rfl, rfl⟩
  | [c], _, h => by simp [wellFormedMoves] at h
  | a :: b :: rest, pos, h => by
      simp only [wellFormedMoves, Bool.and_eq_true] at h
      obtain ⟨⟨hf, ha⟩, hr⟩ := h
      obtain ⟨toks, hp, hs⟩ := parseFrom_roundTrip rest (pos + 2) hr
      refine ⟨(a, b) :: toks, ?_, ?_⟩
      · simp [parseFrom, hf, ha, hp]
      · simp [serializeTokens, hs]

theorem parseFrom_err :
    ∀ (s : List Char) (pos : Nat), wellFormedMoves s = false →
      ∃ e, parseFrom pos s = Except.error e ∧ pos ≤ errPos e ∧
        errLocates s pos e
  | [], _, h => by simp [wellFormedMoves] at h
  | [c], pos, _ => by
      refine ⟨ParseError.incompletePair pos c, rfl, le_refl _, ?_⟩
      simp [errLocates, errPos, wellFormedMoves]
  | a :: b :: rest, pos, h => by
      by_cases hf : validFace a
      · by_cases ha : validAmount a b
        · have hr : wellFormedMoves rest = false := by
            simpa [wellFormedMoves, hf, ha] using h
          obtain ⟨e, he, hpos, hloc⟩ := parseFrom_err rest (pos + 2) hr
          refine ⟨e, by simp [parseFrom, hf, ha, he], by omega, ?_⟩
          have hk : errPos e - pos = (errPos e - (pos + 2)) + 2 := by omega
          cases e with
          | incompletePair p c =>
              obtain ⟨h1, h2⟩ := hloc
              refine ⟨?_, ?_⟩
              · rw [show p - pos = (p - (pos + 2)) + 2 from by
                  simpa [errPos] using hk, drop_two_cons]
                exact h1
              · rw [show p - pos = (p - (pos + 2)) + 2 from by
                  simpa [errPos] using hk, take_two_cons]
                simp [wellFormedMoves, hf, ha, h2]
          | badFace p x y =>
              obtain ⟨h1, h2, h3⟩ := hloc
              refine ⟨?_, h2, ?_⟩
              · rw [show p - pos = (p - (pos + 2)) + 2 from by
                  simpa [errPos] using hk, drop_two_cons]
                exact h1
              · rw [show p - pos = (p - (pos + 2)) + 2 from by
                  simpa [errPos] using hk, take_two_cons]
                simp [wellFormedMoves, hf, ha, h3]
          | badAmount p x y =>
              obtain ⟨h1, h2, h3, h4⟩ := hloc
              refine ⟨?_, h2, h3, ?_⟩
              · rw [show p - pos = (p - (pos + 2)) + 2 from by
                  simpa [errPos] using hk, drop_two_cons]
                exact h1
              · rw [show p - pos = (p - (pos + 2)) + 2 from by
                  simpa [errPos] using hk, take_two_cons]
                simp [wellFormedMoves, hf, ha, h4]
        · refine ⟨ParseError.badAmount pos a b, by simp [parseFrom, hf, ha],
            le_refl _, ?_⟩
          simp [errLocates, errPos, hf, ha, wellFormedMoves]
      · refine ⟨ParseError.badFace pos a b, by simp [parseFrom, hf],
          le_refl _, ?_⟩
        simp [errLocates, errPos, hf, wellFormedMoves]

/-- C5 (modelled from the spec, since the source files contain no
parser): every malformed move string — odd length, unknown face letter,
or invalid amount digit — is rejected with a `ParseError` identifying the
offending pair and its position after a cleanly parsed prefix, nothing is
partially accepted, and `parse "F1R"` in particular fails identifying the
trailing incomplete pair at position 2. -/
theorem parse_rejects_malformed (s : List Char)
    (h : wellFormedMoves s = false) :
    (∃ e, parse s = Except.error e ∧ errLocates s 0 e ∧
      ∀ toks, parse s ≠ Except.ok toks) ∧
    parse ("F1R".toList) =
      Except.error (ParseError.incompletePair 2 'R') := by
  constructor
  · obtain ⟨e, he, -, hloc⟩ := parseFrom_err s 0 h
    refine ⟨e, he, hloc, ?_⟩
    intro toks hc
    simp [parse, he] at hc
  · rfl

/-- Witness for C5 at the spec's odd-length example `F1R`. -/
theorem parse_rejects_malformed_witness :
    wellFormedMoves ("F1R".toList) = false ∧
    parse ("F1R".toList) =
      Except.error (ParseError.incompletePair 2 'R') :=
  ⟨by decide, (parse_rejects_malformed ("F1R".toList) (by decide)).2⟩

/-- C9 (modelled from the spec, since the source files contain no
parser): parsing a well-formed even-length move string over the valid
token table and re-serialising the resulting token sequence reproduces
the original string exactly. -/
theorem parse_roundTrip (s : List Char) (h : wellFormedMoves s = true) :
    ∃ toks, parse s = Except.ok toks ∧ serializeTokens toks = s :=
  parseFrom_roundTrip s 0 h

/-- Witness for C9 at `F1R1S3`. -/
theorem parse_roundTrip_witness :
    wellFormedMoves ("F1R1S3".toList) = true ∧
    ∃ toks, parse ("F1R1S3".toList) = Except.ok toks ∧
      serializeTokens toks = "F1R1S3".toList :=
  ⟨by decide, parse_roundTrip ("F1R1S3".toList) (by decide)⟩

end Cube
